import Mathlib

/-!
Verification development for the Med-chain repository.

The repository's server-side core (Record Ledger, Consent Ledger, Access
Authorizer, anchoring state) is not present in the source tree, only its
HTTP client wrappers and UI callers are; those server operations are
modelled from the specification, each with a doc comment saying so.
The wallet-side anchoring logic (anchorRecord in Web3Context.js) and the
upload-confirmation flow (handleBlockchainConfirm in UploadRecordModal)
are present in the source and are embedded from it directly.
-/

namespace MedChain

/-- Uploader and requester roles, from the spec data model. -/
inductive Role where
  | institution
  | doctor
  | patient
deriving DecidableEq, Repr

/-- Actions submitted to the Access Authorizer. -/
inductive Action where
  | Upload
  | View
  | Analyze
  | Confirm
deriving DecidableEq, Repr

/-- The binary authorization decision. -/
inductive Decision where
  | Allowed
  | Denied
deriving DecidableEq, Repr

/-- Error taxonomy of the spec. -/
inductive Fault where
  | NotFound
  | Forbidden
  | StorageFault
  | IntegrityFault
  | AnchorFault
  | AlreadyConfirmed
deriving DecidableEq, Repr

/-- Modelled from the spec: the content hash is a cryptographic digest of
the raw bytes; it is modelled as a deterministic function of the bytes
(the only property the claims use). -/
def hashBytes (b : List Nat) : Nat :=
  b.foldl (fun acc x => acc * 257 + x % 256 + 1) 0

/-- Modelled from the spec: an opaque content address derived from the
content, modelled as ideal (injective) content addressing. -/
structure ContentAddr where
  bytes : List Nat
deriving DecidableEq, Repr

/-- Modelled from the spec: the external content-addressed blob store
wrapped by the Content Store Adapter. -/
structure ContentStore where
  blobs : List (List Nat)
deriving DecidableEq, Repr

/-- Modelled from the spec: put stores bytes, deduplicating identical
content, and returns the content address and content hash. -/
def put (cs : ContentStore) (b : List Nat) : ContentStore × ContentAddr × Nat :=
  (if b ∈ cs.blobs then cs else { blobs := b :: cs.blobs }, ⟨b⟩, hashBytes b)

/-- Modelled from the spec: get returns exactly the bytes stored at a
content address, or none when absent. -/
def getBlob (cs : ContentStore) (a : ContentAddr) : Option (List Nat) :=
  if a.bytes ∈ cs.blobs then some a.bytes else none

/-- Modelled from the spec: MedicalRecord metadata owned by the Record
Ledger. -/
structure MedicalRecord where
  id : Nat
  patientId : String
  uploaderId : String
  uploaderRole : Role
  contentAddr : ContentAddr
  contentHash : Nat
  mediaKind : String
  sizeBytes : Nat
  title : String
  descr : Option String
  createdAt : Nat
  confirmed : Bool
  txRef : Option String
deriving DecidableEq, Repr

/-- Modelled from the spec: the Record Ledger, which owns record metadata
and the content store it depends on. -/
structure RecordLedger where
  records : List MedicalRecord
  nextId : Nat
  store : ContentStore
deriving DecidableEq, Repr

/-- Modelled from the spec: create computes the content hash, stores the
bytes via the Content Store Adapter and persists metadata with
confirmed equal to false. -/
def create (rl : RecordLedger) (patientId uploaderId : String) (role : Role)
    (b : List Nat) (title : String) (descr : Option String) (kind : String)
    (now : Nat) : RecordLedger × MedicalRecord :=
  let stored := put rl.store b
  let r : MedicalRecord :=
    { id := rl.nextId
      patientId := patientId
      uploaderId := uploaderId
      uploaderRole := role
      contentAddr := stored.2.1
      contentHash := stored.2.2
      mediaKind := kind
      sizeBytes := b.length
      title := title
      descr := descr
      createdAt := now
      confirmed := false
      txRef := none }
  ({ records := r :: rl.records, nextId := rl.nextId + 1, store := stored.1 }, r)

/-- Modelled from the spec: fetch record metadata by id. -/
def getRecord (rl : RecordLedger) (rid : Nat) : Option MedicalRecord :=
  rl.records.find? (fun r => r.id == rid)

/-- Modelled from the spec: readContent fetches the bytes by content
address, recomputes the hash and fails with IntegrityFault on mismatch. -/
def readContent (rl : RecordLedger) (rid : Nat) : Except Fault (List Nat) :=
  match getRecord rl rid with
  | none => Except.error Fault.NotFound
  | some r =>
    match getBlob rl.store r.contentAddr with
    | none => Except.error Fault.StorageFault
    | some b =>
      if hashBytes b = r.contentHash then Except.ok b
      else Except.error Fault.IntegrityFault

/-- Modelled from the spec: confirm sets the confirmation flag and stores
the transaction reference, failing with AlreadyConfirmed on a second
call for the same record. -/
def confirm (rl : RecordLedger) (rid : Nat) (tx : String) :
    Except Fault (RecordLedger × MedicalRecord) :=
  match getRecord rl rid with
  | none => Except.error Fault.NotFound
  | some r =>
    if r.confirmed then Except.error Fault.AlreadyConfirmed
    else
      Except.ok
        ({ rl with
            records := rl.records.map (fun x =>
              if x.id = rid then { x with confirmed := true, txRef := some tx } else x) },
         { r with confirmed := true, txRef := some tx })

/-- Modelled from the spec: consent state as a tagged variant. -/
inductive ConsentState where
  | Active
  | Revoked
deriving DecidableEq, Repr

/-- Modelled from the spec: a Consent between a patient and a doctor. -/
structure Consent where
  id : Nat
  patientId : String
  doctorId : String
  state : ConsentState
  grantedAt : Nat
  revokedAt : Option Nat
deriving DecidableEq, Repr

/-- Modelled from the spec: the Consent Ledger; revocation is a state
transition, consents are never deleted. -/
structure ConsentLedger where
  consents : List Consent
  nextId : Nat
deriving DecidableEq, Repr

/-- A consent is the Active consent of the given pair. -/
def isActiveFor (c : Consent) (p d : String) : Bool :=
  c.patientId == p && c.doctorId == d && c.state == ConsentState.Active

/-- Modelled from the spec: point-in-time query of the current state. -/
def isActive (cl : ConsentLedger) (p d : String) : Bool :=
  cl.consents.any (fun c => isActiveFor c p d)

/-- Modelled from the spec: grant returns the existing Active consent of
the pair when present, otherwise creates one in state Active. -/
def grant (cl : ConsentLedger) (p d : String) (now : Nat) : ConsentLedger × Consent :=
  match cl.consents.find? (fun c => isActiveFor c p d) with
  | some c => (cl, c)
  | none =>
    let c : Consent :=
      { id := cl.nextId, patientId := p, doctorId := d,
        state := ConsentState.Active, grantedAt := now, revokedAt := none }
    ({ consents := c :: cl.consents, nextId := cl.nextId + 1 }, c)

/-- Modelled from the spec: revoke transitions Active to Revoked, is a
no-op on an already Revoked consent, and fails with NotFound on an
unknown id. -/
def revoke (cl : ConsentLedger) (cid : Nat) (now : Nat) :
    Except Fault (ConsentLedger × Consent) :=
  match cl.consents.find? (fun c => c.id == cid) with
  | none => Except.error Fault.NotFound
  | some c =>
    if c.state = ConsentState.Revoked then Except.ok (cl, c)
    else
      Except.ok
        ({ cl with
            consents := cl.consents.map (fun x =>
              if x.id = cid then { x with state := ConsentState.Revoked, revokedAt := some now }
              else x) },
         { c with state := ConsentState.Revoked, revokedAt := some now })

/-- Modelled from the spec: the Access Authorizer policy, evaluated in
order with first match winning, defaulting to Denied. -/
def authorize (rl : RecordLedger) (cl : ConsentLedger) (requesterId : String)
    (role : Role) (rid : Nat) (action : Action) : Decision :=
  match getRecord rl rid with
  | none => Decision.Denied
  | some r =>
    match action with
    | Action.Upload =>
      if requesterId = r.uploaderId then
        match role with
        | Role.patient => if requesterId = r.patientId then Decision.Allowed else Decision.Denied
        | Role.doctor =>
          if isActive cl r.patientId requesterId then Decision.Allowed else Decision.Denied
        | Role.institution => Decision.Allowed
      else Decision.Denied
    | Action.View =>
      if requesterId = r.patientId then Decision.Allowed
      else if role = Role.doctor ∧ isActive cl r.patientId requesterId = true then Decision.Allowed
      else Decision.Denied
    | Action.Analyze =>
      if requesterId = r.patientId then Decision.Allowed
      else if role = Role.doctor ∧ isActive cl r.patientId requesterId = true then Decision.Allowed
      else Decision.Denied
    | Action.Confirm =>
      if requesterId = r.uploaderId then Decision.Allowed else Decision.Denied

/-- Declarative reading of the policy table: some rule of the spec allows
the request. Used to state that the operational authorizer is
default-deny. -/
def someRuleAllows (rl : RecordLedger) (cl : ConsentLedger) (requesterId : String)
    (role : Role) (rid : Nat) (action : Action) : Bool :=
  match getRecord rl rid with
  | none => false
  | some r =>
    decide (
      (action = Action.Upload ∧ requesterId = r.uploaderId ∧
        (role = Role.institution ∨
         (role = Role.patient ∧ requesterId = r.patientId) ∨
         (role = Role.doctor ∧ isActive cl r.patientId requesterId = true))) ∨
      ((action = Action.View ∨ action = Action.Analyze) ∧
        (requesterId = r.patientId ∨
         (role = Role.doctor ∧ isActive cl r.patientId requesterId = true))) ∨
      (action = Action.Confirm ∧ requesterId = r.uploaderId))

/-- State-threading wrapper for the Authorizer: per the spec it never
mutates either ledger, so a call returns both ledgers unchanged next to
the decision. -/
def authorizeStep (rl : RecordLedger) (cl : ConsentLedger) (requesterId : String)
    (role : Role) (rid : Nat) (action : Action) :
    (RecordLedger × ConsentLedger) × Decision :=
  ((rl, cl), authorize rl cl requesterId role rid action)

/-- Well-formedness of the Consent Ledger: ids are bounded by the id
counter, distinct, and for each pair at most one consent is Active. -/
def ConsentWF (cl : ConsentLedger) : Prop :=
  (∀ c ∈ cl.consents, c.id < cl.nextId) ∧
  (cl.consents.map Consent.id).Nodup ∧
  (∀ c1 ∈ cl.consents, ∀ c2 ∈ cl.consents,
    c1.state = ConsentState.Active → c2.state = ConsentState.Active →
    c1.patientId = c2.patientId → c1.doctorId = c2.doctorId → c1 = c2)

/-- The zero contract address sentinel of Web3Context.js. -/
def zeroAddress : String := "0x0000000000000000000000000000000000000000"

/-- Observable interactions with the ledger contract issued by the wallet
code (constructing and invoking the MedicalRecordRegistry contract). -/
inductive LedgerOp where
  | submitAnchor : String → LedgerOp
  | queryIsAnchored : String → LedgerOp
deriving DecidableEq, Repr

/-- Shape of an ethers transaction receipt as used by the wallet code. -/
structure TxReceipt where
  status : Nat
  transactionHash : String
deriving DecidableEq, Repr

/-- Decidable equality for fallible results. -/
instance {α β : Type} [DecidableEq α] [DecidableEq β] : DecidableEq (Except α β)
  | Except.error a, Except.error b =>
    if h : a = b then Decidable.isTrue (by rw [h])
    else Decidable.isFalse (fun he => by cases he; exact h rfl)
  | Except.error _, Except.ok _ => Decidable.isFalse (fun he => by cases he)
  | Except.ok _, Except.error _ => Decidable.isFalse (fun he => by cases he)
  | Except.ok a, Except.ok b =>
    if h : a = b then Decidable.isTrue (by rw [h])
    else Decidable.isFalse (fun he => by cases he; exact h rfl)

/-- Shape of the transaction object returned by anchorRecord: a hash and
the outcome of awaiting wait(). -/
structure TxHandle where
  hash : String
  waitReceipt : Except String TxReceipt
deriving DecidableEq, Repr

/-- The simulated transaction hash of Web3Context.js: the literal 0x
followed by 64 pseudo-random hexadecimal digits, with the random number
generator made explicit as a function argument. -/
def simTxHash (rng : Nat → Nat) : String :=
  "0x" ++ String.mk ((List.range 64).map (fun i => Nat.digitChar (rng i % 16)))

/-- Wallet-context state read by anchorRecord in Web3Context.js. The
anchoredHashes field carries the external ledger state so that the claim
about an already anchored hash can be posed; the code itself never reads
it. -/
structure Web3State where
  signerSet : Bool
  recordRegistry : String
  anchoredHashes : List String
deriving DecidableEq, Repr

/-- Embedding of anchorRecord from Web3Context.js. It throws when no
signer is set, returns a simulated transaction when the configured
registry address is the zero address, and otherwise invokes the contract
submission, whose outcome is the explicit contractTx argument. The second
component records every ledger interaction performed. -/
def anchorRecord (st : Web3State) (rng : Nat → Nat)
    (contractTx : Except String TxHandle) (fileHash : String) :
    Except String TxHandle × List LedgerOp :=
  if st.signerSet = false then
    (Except.error "Wallet not connected", [])
  else
    let hashBytes := "0x" ++ fileHash
    if st.recordRegistry = zeroAddress then
      let txHash := simTxHash rng
      (Except.ok { hash := txHash,
                   waitReceipt := Except.ok { status := 1, transactionHash := txHash } },
       [])
    else
      (contractTx, [LedgerOp.submitAnchor hashBytes])

/-- The upload result consumed by handleBlockchainConfirm in
UploadRecordModal. -/
structure UploadResult where
  id : Nat
  file_hash : String
  ipfs_hash : String
deriving DecidableEq, Repr

/-- Backend API calls issued by the modal flow. -/
inductive ApiCall where
  | confirmRecordCall : Nat → String → ApiCall
deriving DecidableEq, Repr

/-- Observable outcome of running handleBlockchainConfirm: final step,
transaction hash component state, backend calls issued, toast messages
shown, and ledger interactions performed. -/
structure ConfirmOutcome where
  step : String
  txHash : Option String
  apiCalls : List ApiCall
  toasts : List String
  ledgerOps : List LedgerOp
deriving DecidableEq, Repr

/-- Embedding of handleBlockchainConfirm from UploadRecordModal. It early
returns without the upload result file hash, anchors via anchorRecord,
awaits wait(), records the confirmRecord backend call with the receipt
transaction hash, and on any thrown error lands in the catch branch:
an error toast and step done, with no backend call. The outcome of the
backend confirm request is the explicit confirmResp argument. -/
def handleBlockchainConfirm (st : Web3State) (rng : Nat → Nat)
    (contractTx : Except String TxHandle) (confirmResp : Except String Unit)
    (uploadResult : Option UploadResult) (step0 : String) (txHash0 : Option String) :
    ConfirmOutcome :=
  match uploadResult with
  | none => { step := step0, txHash := txHash0, apiCalls := [], toasts := [], ledgerOps := [] }
  | some u =>
    if u.file_hash = "" then
      { step := step0, txHash := txHash0, apiCalls := [], toasts := [], ledgerOps := [] }
    else
      match anchorRecord st rng contractTx u.file_hash with
      | (Except.error _, ops) =>
        { step := "done", txHash := txHash0, apiCalls := [],
          toasts := ["Blockchain transaction failed. Record saved without anchoring."],
          ledgerOps := ops }
      | (Except.ok tx, ops) =>
        match tx.waitReceipt with
        | Except.error _ =>
          { step := "done", txHash := txHash0, apiCalls := [],
            toasts := ["Transaction submitted. Waiting for confirmation...",
                       "Blockchain transaction failed. Record saved without anchoring."],
            ledgerOps := ops }
        | Except.ok receipt =>
          match confirmResp with
          | Except.error _ =>
            { step := "done", txHash := some receipt.transactionHash,
              apiCalls := [ApiCall.confirmRecordCall u.id receipt.transactionHash],
              toasts := ["Transaction submitted. Waiting for confirmation...",
                         "Blockchain transaction failed. Record saved without anchoring."],
              ledgerOps := ops }
          | Except.ok _ =>
            { step := "done", txHash := some receipt.transactionHash,
              apiCalls := [ApiCall.confirmRecordCall u.id receipt.transactionHash],
              toasts := ["Transaction submitted. Waiting for confirmation...",
                         "Record anchored on blockchain!"],
              ledgerOps := ops }

/-- Effect of one backend API call on the (spec-modelled) Record Ledger. -/
def applyApiCall (rl : RecordLedger) (c : ApiCall) : RecordLedger :=
  match c with
  | ApiCall.confirmRecordCall rid tx =>
    match confirm rl rid tx with
    | Except.ok res => res.1
    | Except.error _ => rl

/-- Effect of a list of backend API calls on the Record Ledger. -/
def applyApiCalls (rl : RecordLedger) (cs : List ApiCall) : RecordLedger :=
  cs.foldl applyApiCall rl

/-- Recognizer for lowercase hexadecimal digit characters, the output
alphabet of the JS number toString in base 16. -/
def isHexDigit (c : Char) : Bool :=
  (48 ≤ c.toNat && c.toNat ≤ 57) || (97 ≤ c.toNat && c.toNat ≤ 102)

/-- Every digit character of a number reduced mod 16 is a lowercase
hexadecimal digit. -/
lemma digitChar_mod16_isHexDigit (n : Nat) :
    isHexDigit (Nat.digitChar (n % 16)) = true := by
  have key : ∀ k : Fin 16, isHexDigit (Nat.digitChar k.val) = true := by decide
  have h16 : n % 16 < 16 := Nat.mod_lt n (by decide)
  exact key ⟨n % 16, h16⟩

/-- The character list of the simulated transaction hash. -/
lemma simTxHash_toList (rng : Nat → Nat) :
    (simTxHash rng).toList =
      '0' :: 'x' :: (List.range 64).map (fun i => Nat.digitChar (rng i % 16)) := rfl

/-- C9: when the configured record-registry address is the zero address
(and a signer is set), anchorRecord performs no ledger interaction and
returns a simulated transaction whose hash is 0x followed by 64
pseudo-random hexadecimal digits, and whose wait resolves to a receipt of
status 1 carrying that same hash, the same shape a real transaction
handle has. -/
theorem anchorRecord_zero_address_simulates (st : Web3State) (rng : Nat → Nat)
    (ctx : Except String TxHandle) (h : String)
    (hs : st.signerSet = true) (hz : st.recordRegistry = zeroAddress) :
    (anchorRecord st rng ctx h).2 = [] ∧
    (anchorRecord st rng ctx h).1 =
      Except.ok { hash := simTxHash rng,
                  waitReceipt := Except.ok { status := 1, transactionHash := simTxHash rng } } ∧
    (simTxHash rng).length = 66 ∧
    (simTxHash rng).toList.take 2 = ['0', 'x'] ∧
    ((simTxHash rng).toList.drop 2).length = 64 ∧
    ∀ c ∈ (simTxHash rng).toList.drop 2, isHexDigit c = true := by
  refine ⟨?_, ?_, ?_, ?_, ?_, ?_⟩
  · simp [anchorRecord, hs, hz]
  · simp [anchorRecord, hs, hz]
  · simp [simTxHash, String.length, String.append]
  · rw [simTxHash_toList]; rfl
  · rw [simTxHash_toList]; simp
  · rw [simTxHash_toList]
    intro c hc
    simp only [List.drop_succ_cons, List.drop_zero, List.mem_map] at hc
    obtain ⟨i, _, hi⟩ := hc
    exact hi ▸ digitChar_mod16_isHexDigit (rng i)

/-- Concrete instantiation of the simulated-anchoring theorem. -/
theorem anchorRecord_zero_address_simulates_witness :
    (anchorRecord { signerSet := true, recordRegistry := zeroAddress, anchoredHashes := [] }
      (fun i => i) (Except.error "unused") "abc").2 = [] ∧
    (anchorRecord { signerSet := true, recordRegistry := zeroAddress, anchoredHashes := [] }
      (fun i => i) (Except.error "unused") "abc").1 =
      Except.ok { hash := simTxHash (fun i => i),
                  waitReceipt :=
                    Except.ok { status := 1, transactionHash := simTxHash (fun i => i) } } ∧
    (simTxHash (fun i => i)).length = 66 ∧
    (simTxHash (fun i => i)).toList.take 2 = ['0', 'x'] ∧
    ((simTxHash (fun i => i)).toList.drop 2).length = 64 ∧
    ∀ c ∈ (simTxHash (fun i => i)).toList.drop 2, isHexDigit c = true :=
  anchorRecord_zero_address_simulates _ (fun i => i) (Except.error "unused") "abc" rfl rfl

/-- C10: with no wallet signer set, anchorRecord throws the error Wallet
not connected and performs no contract construction or ledger submission
at all: the interaction trace is empty. -/
theorem anchorRecord_requires_signer (st : Web3State) (rng : Nat → Nat)
    (ctx : Except String TxHandle) (h : String) (hs : st.signerSet = false) :
    anchorRecord st rng ctx h = (Except.error "Wallet not connected", []) := by
  simp [anchorRecord, hs]

/-- Concrete instantiation of the missing-signer theorem. -/
theorem anchorRecord_requires_signer_witness :
    anchorRecord { signerSet := false, recordRegistry := "0x1111", anchoredHashes := [] }
      (fun i => i) (Except.ok { hash := "0xff", waitReceipt := Except.error "x" }) "abc" =
      (Except.error "Wallet not connected", []) :=
  anchorRecord_requires_signer _ _ _ _ rfl

/-- Concrete wallet state for the duplicate-anchoring counterexample: a
signer is set, a real registry contract is configured, and the hash about
to be anchored is already anchored on the ledger. -/
def stDup : Web3State :=
  { signerSet := true
    recordRegistry := "0x1234567890abcdef1234567890abcdef12345678"
    anchoredHashes := ["0xdeadbeef"] }

/-- Concrete contract transaction returned by the ledger for the
duplicate-anchoring counterexample. -/
def txDup : TxHandle :=
  { hash := "0xaa", waitReceipt := Except.ok { status := 1, transactionHash := "0xaa" } }

/-- C5 counterexample: for a record whose content hash is already anchored
on the ledger, anchorRecord still submits the anchoring transaction and
never queries isAnchored, so the claimed isAnchored short-circuit does not
happen. -/
theorem anchorRecord_no_isAnchored_check_counterexample :
    stDup.anchoredHashes.contains ("0x" ++ "deadbeef") = true ∧
    (anchorRecord stDup (fun _ => 0) (Except.ok txDup) "deadbeef").2 =
      [LedgerOp.submitAnchor "0xdeadbeef"] ∧
    ∀ q, LedgerOp.queryIsAnchored q ∉
      (anchorRecord stDup (fun _ => 0) (Except.ok txDup) "deadbeef").2 := by
  refine ⟨by decide, by decide, ?_⟩
  intro q hq
  simp [anchorRecord, stDup, zeroAddress] at hq

/-- C5 amended: anchorRecord never consults isAnchored. Whenever a signer
is set and a registry contract other than the zero address is configured,
every call invokes the contract submission, even for an already anchored
hash; with the zero address it simulates instead. No call ever emits an
isAnchored query. -/
theorem anchorRecord_always_submits (st : Web3State) (rng : Nat → Nat)
    (ctx : Except String TxHandle) (h : String)
    (hs : st.signerSet = true) (hz : st.recordRegistry ≠ zeroAddress) :
    (anchorRecord st rng ctx h).1 = ctx ∧
    (anchorRecord st rng ctx h).2 = [LedgerOp.submitAnchor ("0x" ++ h)] ∧
    ∀ st2 rng2 ctx2 h2 q,
      LedgerOp.queryIsAnchored q ∉ (anchorRecord st2 rng2 ctx2 h2).2 := by
  refine ⟨by simp [anchorRecord, hs, hz], by simp [anchorRecord, hs, hz], ?_⟩
  intro st2 rng2 ctx2 h2 q hq
  unfold anchorRecord at hq
  by_cases h1 : st2.signerSet = false
  · simp [h1] at hq
  · by_cases h2z : st2.recordRegistry = zeroAddress <;> simp [h1, h2z] at hq

/-- Concrete instantiation of the always-submits theorem. -/
theorem anchorRecord_always_submits_witness :
    (anchorRecord stDup (fun _ => 0) (Except.ok txDup) "deadbeef").1 =
      Except.ok txDup ∧
    (anchorRecord stDup (fun _ => 0) (Except.ok txDup) "deadbeef").2 =
      [LedgerOp.submitAnchor ("0x" ++ "deadbeef")] ∧
    ∀ st2 rng2 ctx2 h2 q,
      LedgerOp.queryIsAnchored q ∉ (anchorRecord st2 rng2 ctx2 h2).2 :=
  anchorRecord_always_submits stDup (fun _ => 0) (Except.ok txDup) "deadbeef" rfl
    (by decide)

/-- C6: if the ledger submission fails, either because anchorRecord threw
or because awaiting the transaction rejected, the confirmation flow makes
no backend call at all: the spec-modelled Record Ledger is unchanged, the
record keeps whatever confirmation state it had, reads are unaffected, the
transaction-hash component state is untouched, the flow still ends in the
done step, and the failure is surfaced to the user as the anchoring
failure message. -/
theorem handleBlockchainConfirm_anchor_failure_harmless (st : Web3State)
    (rng : Nat → Nat) (ctx : Except String TxHandle) (confirmResp : Except String Unit)
    (u : UploadResult) (step0 : String) (tx0 : Option String)
    (hfh : u.file_hash ≠ "")
    (hfail : (∃ e, (anchorRecord st rng ctx u.file_hash).1 = Except.error e) ∨
             (∃ tx e, (anchorRecord st rng ctx u.file_hash).1 = Except.ok tx ∧
                       tx.waitReceipt = Except.error e)) :
    (handleBlockchainConfirm st rng ctx confirmResp (some u) step0 tx0).apiCalls = [] ∧
    (handleBlockchainConfirm st rng ctx confirmResp (some u) step0 tx0).txHash = tx0 ∧
    (handleBlockchainConfirm st rng ctx confirmResp (some u) step0 tx0).step = "done" ∧
    (handleBlockchainConfirm st rng ctx confirmResp (some u) step0 tx0).toasts.getLast? =
      some "Blockchain transaction failed. Record saved without anchoring." ∧
    (∀ rl : RecordLedger,
      applyApiCalls rl
        (handleBlockchainConfirm st rng ctx confirmResp (some u) step0 tx0).apiCalls = rl) ∧
    (∀ rl : RecordLedger,
      readContent
        (applyApiCalls rl
          (handleBlockchainConfirm st rng ctx confirmResp (some u) step0 tx0).apiCalls)
        u.id = readContent rl u.id) := by
  have hout :
      handleBlockchainConfirm st rng ctx confirmResp (some u) step0 tx0 =
        { step := "done", txHash := tx0, apiCalls := [],
          toasts := ["Blockchain transaction failed. Record saved without anchoring."],
          ledgerOps := (anchorRecord st rng ctx u.file_hash).2 } ∨
      handleBlockchainConfirm st rng ctx confirmResp (some u) step0 tx0 =
        { step := "done", txHash := tx0, apiCalls := [],
          toasts := ["Transaction submitted. Waiting for confirmation...",
                     "Blockchain transaction failed. Record saved without anchoring."],
          ledgerOps := (anchorRecord st rng ctx u.file_hash).2 } := by
    rcases hfail with ⟨e, he⟩ | ⟨tx, e, htx, hw⟩
    · left
      simp only [handleBlockchainConfirm, if_neg hfh]
      rcases hanch : anchorRecord st rng ctx u.file_hash with ⟨res, ops⟩
      rw [hanch] at he
      simp only at he
      subst he
      simp [hanch]
    · right
      simp only [handleBlockchainConfirm, if_neg hfh]
      rcases hanch : anchorRecord st rng ctx u.file_hash with ⟨res, ops⟩
      rw [hanch] at htx
      simp only at htx
      subst htx
      simp [hanch, hw]
  rcases hout with hout | hout <;>
    exact ⟨by rw [hout], by rw [hout], by rw [hout], by rw [hout]; rfl,
           fun rl => by rw [hout]; rfl, fun rl => by rw [hout]; rfl⟩

/-- Concrete instantiation of the anchoring-failure theorem: the contract
submission rejects with a network fault. -/
theorem handleBlockchainConfirm_anchor_failure_harmless_witness :
    (handleBlockchainConfirm stDup (fun _ => 0) (Except.error "network fault")
      (Except.ok ()) (some { id := 7, file_hash := "deadbeef", ipfs_hash := "Qm1" })
      "confirm" none).apiCalls = [] ∧
    (handleBlockchainConfirm stDup (fun _ => 0) (Except.error "network fault")
      (Except.ok ()) (some { id := 7, file_hash := "deadbeef", ipfs_hash := "Qm1" })
      "confirm" none).txHash = none ∧
    (handleBlockchainConfirm stDup (fun _ => 0) (Except.error "network fault")
      (Except.ok ()) (some { id := 7, file_hash := "deadbeef", ipfs_hash := "Qm1" })
      "confirm" none).step = "done" ∧
    (handleBlockchainConfirm stDup (fun _ => 0) (Except.error "network fault")
      (Except.ok ()) (some { id := 7, file_hash := "deadbeef", ipfs_hash := "Qm1" })
      "confirm" none).toasts.getLast? =
      some "Blockchain transaction failed. Record saved without anchoring." ∧
    (∀ rl : RecordLedger,
      applyApiCalls rl
        (handleBlockchainConfirm stDup (fun _ => 0) (Except.error "network fault")
          (Except.ok ()) (some { id := 7, file_hash := "deadbeef", ipfs_hash := "Qm1" })
          "confirm" none).apiCalls = rl) ∧
    (∀ rl : RecordLedger,
      readContent
        (applyApiCalls rl
          (handleBlockchainConfirm stDup (fun _ => 0) (Except.error "network fault")
            (Except.ok ()) (some { id := 7, file_hash := "deadbeef", ipfs_hash := "Qm1" })
            "confirm" none).apiCalls) 7 = readContent rl 7) :=
  handleBlockchainConfirm_anchor_failure_harmless stDup (fun _ => 0)
    (Except.error "network fault") (Except.ok ())
    { id := 7, file_hash := "deadbeef", ipfs_hash := "Qm1" } "confirm" none
    (by decide) (Or.inl ⟨"network fault", by decide⟩)

/-- C2: for every byte payload, reading the content of the record just
created from it yields exactly those bytes, and the hash recomputed from
the retrieved bytes equals the content hash stored on the record. -/
theorem create_readContent_roundtrip (rl : RecordLedger) (pid uid : String)
    (role : Role) (b : List Nat) (ti : String) (de : Option String) (k : String)
    (now : Nat) :
    readContent (create rl pid uid role b ti de k now).1
        (create rl pid uid role b ti de k now).2.id = Except.ok b ∧
    hashBytes b = (create rl pid uid role b ti de k now).2.contentHash := by
  by_cases hmem : b ∈ rl.store.blobs <;>
    simp [create, put, readContent, getRecord, getBlob, hmem]

/-- An element of a duplicate-free list is counted exactly once. -/
lemma count_one_of_mem_nodup {α : Type} [BEq α] [LawfulBEq α] {l : List α} {a : α}
    (hnd : l.Nodup) (hmem : a ∈ l) : l.count a = 1 := by
  induction l with
  | nil => cases hmem
  | cons x xs ih =>
    rcases List.nodup_cons.mp hnd with ⟨hx, hxs⟩
    rcases List.mem_cons.mp hmem with rfl | hmem2
    · simp [List.count_cons_self, List.count_eq_zero.mpr hx]
    · have hne : a ≠ x := fun he => hx (he ▸ hmem2)
      rw [List.count_cons_of_ne hne]
      exact ih hxs hmem2

/-- C7: creating two records from the same bytes yields two distinct
record ids sharing one content address, and the store holds the blob
exactly once. -/
theorem create_same_bytes_dedup (rl : RecordLedger) (p1 u1 p2 u2 : String)
    (role1 role2 : Role) (b : List Nat) (t1 t2 : String) (d1 d2 : Option String)
    (k1 k2 : String) (n1 n2 : Nat) (hnd : rl.store.blobs.Nodup) :
    (create rl p1 u1 role1 b t1 d1 k1 n1).2.id ≠
      (create (create rl p1 u1 role1 b t1 d1 k1 n1).1 p2 u2 role2 b t2 d2 k2 n2).2.id ∧
    (create rl p1 u1 role1 b t1 d1 k1 n1).2.contentAddr =
      (create (create rl p1 u1 role1 b t1 d1 k1 n1).1 p2 u2 role2 b t2 d2 k2 n2).2.contentAddr ∧
    ((create (create rl p1 u1 role1 b t1 d1 k1 n1).1 p2 u2 role2 b t2 d2 k2
        n2).1.store.blobs.count b) = 1 := by
  refine ⟨by simp [create, put], by simp [create, put], ?_⟩
  by_cases hmem : b ∈ rl.store.blobs
  · simpa [create, put, hmem] using count_one_of_mem_nodup hnd hmem
  · simp [create, put, hmem, List.count_cons_self, List.count_eq_zero.mpr hmem]

/-- Concrete instantiation of the deduplication theorem. -/
theorem create_same_bytes_dedup_witness :
    (create { records := [], nextId := 0, store := { blobs := [] } }
        "p1" "p1" Role.patient [1, 2] "a" none "pdf" 1).2.id ≠
      (create (create { records := [], nextId := 0, store := { blobs := [] } }
          "p1" "p1" Role.patient [1, 2] "a" none "pdf" 1).1
        "p1" "p1" Role.patient [1, 2] "b" none "pdf" 2).2.id ∧
    (create { records := [], nextId := 0, store := { blobs := [] } }
        "p1" "p1" Role.patient [1, 2] "a" none "pdf" 1).2.contentAddr =
      (create (create { records := [], nextId := 0, store := { blobs := [] } }
          "p1" "p1" Role.patient [1, 2] "a" none "pdf" 1).1
        "p1" "p1" Role.patient [1, 2] "b" none "pdf" 2).2.contentAddr ∧
    ((create (create { records := [], nextId := 0, store := { blobs := [] } }
          "p1" "p1" Role.patient [1, 2] "a" none "pdf" 1).1
        "p1" "p1" Role.patient [1, 2] "b" none "pdf" 2).1.store.blobs.count [1, 2]) = 1 :=
  create_same_bytes_dedup { records := [], nextId := 0, store := { blobs := [] } }
    "p1" "p1" "p1" "p1" Role.patient Role.patient [1, 2] "a" "b" none none
    "pdf" "pdf" 1 2 (by decide)

/-- A record found by id satisfies the id predicate and is a member. -/
lemma getRecord_some_id {rl : RecordLedger} {rid : Nat} {r : MedicalRecord}
    (h : getRecord rl rid = some r) : r.id = rid := by
  have := List.find?_some h
  simpa using this

/-- Looking a record up after an in-place field update that preserves ids
returns the updated version of the record found before. -/
lemma getRecord_map_confirm {rl : RecordLedger} {rid : Nat} {r : MedicalRecord}
    (tx : String) (h : getRecord rl rid = some r) :
    getRecord
      { rl with
          records := rl.records.map (fun x =>
            if x.id = rid then { x with confirmed := true, txRef := some tx } else x) }
      rid = some { r with confirmed := true, txRef := some tx } := by
  have hid : r.id = rid := getRecord_some_id h
  unfold getRecord at h ⊢
  rw [List.find?_map]
  have hp : ((fun x : MedicalRecord => x.id == rid) ∘
      (fun x => if x.id = rid then { x with confirmed := true, txRef := some tx } else x)) =
      (fun x : MedicalRecord => x.id == rid) := by
    funext x
    by_cases hx : x.id = rid <;> simp [hx]
  rw [hp, h]
  simp [hid]

/-- C4: confirm succeeds at most once per record: on an unconfirmed record
the first call succeeds, sets the confirmation flag and stores the
transaction reference, and a second confirm call on the same record fails
with AlreadyConfirmed. -/
theorem confirm_exactly_once (rl : RecordLedger) (rid : Nat) (r : MedicalRecord)
    (tx tx2 : String) (hget : getRecord rl rid = some r)
    (hconf : r.confirmed = false) :
    ∃ rl2 r2, confirm rl rid tx = Except.ok (rl2, r2) ∧
      r2.confirmed = true ∧ r2.txRef = some tx ∧
      confirm rl2 rid tx2 = Except.error Fault.AlreadyConfirmed := by
  refine ⟨{ rl with
              records := rl.records.map (fun x =>
                if x.id = rid then { x with confirmed := true, txRef := some tx }
                else x) },
          { r with confirmed := true, txRef := some tx }, ?_, rfl, rfl, ?_⟩
  · unfold confirm
    rw [hget]
    simp [hconf]
  · unfold confirm
    rw [getRecord_map_confirm tx hget]
    simp

/-- Concrete instantiation of the confirm-exactly-once theorem. -/
theorem confirm_exactly_once_witness :
    ∃ rl2 r2,
      confirm
        { records := [{ id := 0, patientId := "p1", uploaderId := "p1",
                        uploaderRole := Role.patient, contentAddr := ⟨[1]⟩,
                        contentHash := hashBytes [1], mediaKind := "pdf",
                        sizeBytes := 1, title := "t", descr := none, createdAt := 3,
                        confirmed := false, txRef := none }],
          nextId := 1, store := { blobs := [[1]] } } 0 "0xtx1" = Except.ok (rl2, r2) ∧
      r2.confirmed = true ∧ r2.txRef = some "0xtx1" ∧
      confirm rl2 0 "0xtx2" = Except.error Fault.AlreadyConfirmed :=
  confirm_exactly_once _ 0
    { id := 0, patientId := "p1", uploaderId := "p1", uploaderRole := Role.patient,
      contentAddr := ⟨[1]⟩, contentHash := hashBytes [1], mediaKind := "pdf",
      sizeBytes := 1, title := "t", descr := none, createdAt := 3,
      confirmed := false, txRef := none }
    "0xtx1" "0xtx2" (by decide) rfl

/-- C8: the Access Authorizer is a pure default-deny decision function:
when no policy rule allows the request the decision is Denied (the
decision is Allowed exactly when some rule allows), a call leaves both
ledgers unchanged, and equal ledger states with equal requests yield equal
decisions. -/
theorem authorize_default_deny_pure (rl : RecordLedger) (cl : ConsentLedger)
    (rid : String) (role : Role) (recId : Nat) (act : Action) :
    (someRuleAllows rl cl rid role recId act = false →
      authorize rl cl rid role recId act = Decision.Denied) ∧
    (authorize rl cl rid role recId act = Decision.Allowed ↔
      someRuleAllows rl cl rid role recId act = true) ∧
    (authorizeStep rl cl rid role recId act).1 = (rl, cl) ∧
    (∀ rl2 cl2, rl = rl2 → cl = cl2 →
      authorize rl cl rid role recId act = authorize rl2 cl2 rid role recId act) := by
  have hiff : authorize rl cl rid role recId act = Decision.Allowed ↔
      someRuleAllows rl cl rid role recId act = true := by
    rcases hrec : getRecord rl recId with _ | r
    · simp [authorize, someRuleAllows, hrec]
    · cases act <;> cases role <;>
        simp only [authorize, someRuleAllows, hrec] <;>
        split_ifs <;> simp_all
  refine ⟨?_, hiff, rfl, ?_⟩
  · intro hfalse
    rcases hd : authorize rl cl rid role recId act with _ | _
    · rw [hiff.mp hd] at hfalse
      cases hfalse
    · rfl
  · intro rl2 cl2 h1 h2
    rw [h1, h2]

/-- Concrete instantiation of the default-deny theorem: a doctor with no
consent on an unknown record is denied. -/
theorem authorize_default_deny_pure_witness :
    authorize { records := [], nextId := 0, store := { blobs := [] } }
      { consents := [], nextId := 0 } "d1" Role.doctor 0 Action.View =
      Decision.Denied ∧
    authorize { records := [], nextId := 0, store := { blobs := [] } }
      { consents := [], nextId := 0 } "d1" Role.doctor 0 Action.View =
      authorize { records := [], nextId := 0, store := { blobs := [] } }
        { consents := [], nextId := 0 } "d1" Role.doctor 0 Action.View :=
  ⟨(authorize_default_deny_pure { records := [], nextId := 0, store := { blobs := [] } }
      { consents := [], nextId := 0 } "d1" Role.doctor 0 Action.View).1 (by decide),
   (authorize_default_deny_pure { records := [], nextId := 0, store := { blobs := [] } }
      { consents := [], nextId := 0 } "d1" Role.doctor 0 Action.View).2.2.2
      { records := [], nextId := 0, store := { blobs := [] } }
      { consents := [], nextId := 0 } rfl rfl⟩

/-- Unfolding characterization of being the Active consent of a pair. -/
lemma isActiveFor_iff {c : Consent} {p d : String} :
    isActiveFor c p d = true ↔
      c.patientId = p ∧ c.doctorId = d ∧ c.state = ConsentState.Active := by
  simp [isActiveFor, and_assoc]

/-- In a well-formed Consent Ledger, looking a member consent up by its id
finds exactly that consent. -/
lemma find?_id_of_mem {cl : ConsentLedger}
    (hnd : (cl.consents.map Consent.id).Nodup) {c : Consent}
    (hc : c ∈ cl.consents) :
    cl.consents.find? (fun x => x.id == c.id) = some c := by
  rcases hfind : cl.consents.find? (fun x => x.id == c.id) with _ | c2
  · rw [List.find?_eq_none] at hfind
    exact absurd (by simp) (hfind c hc)
  · have h1 := List.find?_some hfind
    have h2 := List.mem_of_find?_eq_some hfind
    have h3 : c2.id = c.id := by simpa using h1
    have h4 := List.inj_on_of_nodup_map hnd h2 hc h3
    rw [h4] at hfind
    exact hfind

/-- grant preserves the Consent Ledger well-formedness invariant,
including at most one Active consent per pair. -/
lemma grant_wf {cl : ConsentLedger} (p d : String) (now : Nat)
    (hwf : ConsentWF cl) : ConsentWF (grant cl p d now).1 := by
  obtain ⟨hbound, hnd, huniq⟩ := hwf
  rcases hf : cl.consents.find? (fun c => isActiveFor c p d) with _ | c
  · have hnone := List.find?_eq_none.mp hf
    have hg : (grant cl p d now).1 =
        { consents :=
            { id := cl.nextId, patientId := p, doctorId := d,
              state := ConsentState.Active, grantedAt := now,
              revokedAt := none } :: cl.consents,
          nextId := cl.nextId + 1 } := by
      simp [grant, hf]
    rw [hg]
    refine ⟨?_, ?_, ?_⟩
    · intro c2 hc2
      rcases List.mem_cons.mp hc2 with rfl | hmem
      · exact Nat.lt_succ_self _
      · exact Nat.lt_succ_of_lt (hbound c2 hmem)
    · simp only [List.map_cons, List.nodup_cons]
      refine ⟨?_, hnd⟩
      intro hmem
      rcases List.mem_map.mp hmem with ⟨c2, hc2, hid⟩
      exact absurd hid (Nat.ne_of_lt (hbound c2 hc2))
    · intro c1 hc1 c2 hc2 ha1 ha2 hpp hdd
      rcases List.mem_cons.mp hc1 with rfl | hm1 <;>
        rcases List.mem_cons.mp hc2 with rfl | hm2
      · rfl
      · exact absurd (isActiveFor_iff.mpr ⟨hpp.symm, hdd.symm, ha2⟩) (hnone c2 hm2)
      · exact absurd (isActiveFor_iff.mpr ⟨hpp, hdd, ha1⟩) (hnone c1 hm1)
      · exact huniq c1 hm1 c2 hm2 ha1 ha2 hpp hdd
  · have hg : (grant cl p d now).1 = cl := by simp [grant, hf]
    rw [hg]
    exact ⟨hbound, hnd, huniq⟩

/-- revoke preserves the Consent Ledger well-formedness invariant. -/
lemma revoke_wf {cl cl2 : ConsentLedger} {c2 : Consent} {cid now : Nat}
    (hwf : ConsentWF cl) (h : revoke cl cid now = Except.ok (cl2, c2)) :
    ConsentWF cl2 := by
  obtain ⟨hbound, hnd, huniq⟩ := hwf
  rcases hf : cl.consents.find? (fun c => c.id == cid) with _ | c
  · have heq : revoke cl cid now = Except.error Fault.NotFound := by
      simp [revoke, hf]
    rw [heq] at h
    cases h
  · by_cases hrev : c.state = ConsentState.Revoked
    · have heq : revoke cl cid now = Except.ok (cl, c) := by
        simp [revoke, hf, hrev]
      rw [heq] at h
      injection h with h2
      injection h2 with h3 h4
      rw [← h3]
      exact ⟨hbound, hnd, huniq⟩
    · have heq : revoke cl cid now =
          Except.ok
            ({ cl with
                consents := cl.consents.map (fun x =>
                  if x.id = cid
                  then { x with state := ConsentState.Revoked, revokedAt := some now }
                  else x) },
             { c with state := ConsentState.Revoked, revokedAt := some now }) := by
        simp [revoke, hf, hrev]
      rw [heq] at h
      injection h with h2
      injection h2 with h3 h4
      rw [← h3]
      refine ⟨?_, ?_, ?_⟩
      · intro x hx
        rcases List.mem_map.mp hx with ⟨y, hy, hxy⟩
        have hid : x.id = y.id := by
          rw [← hxy]
          by_cases hyc : y.id = cid <;> simp [hyc]
        rw [hid]
        exact hbound y hy
      · have hcomp :
            (fun x : Consent => x.id) ∘
              (fun x => if x.id = cid
                then { x with state := ConsentState.Revoked, revokedAt := some now }
                else x) = fun x : Consent => x.id := by
          funext x
          by_cases hx : x.id = cid <;> simp [hx]
        simp only [List.map_map, hcomp]
        exact hnd
      · intro x1 hx1 x2 hx2 ha1 ha2 hpp hdd
        rcases List.mem_map.mp hx1 with ⟨y1, hy1, hxy1⟩
        rcases List.mem_map.mp hx2 with ⟨y2, hy2, hxy2⟩
        have hne1 : y1.id ≠ cid := by
          intro hyc
          rw [← hxy1] at ha1
          simp [hyc] at ha1
        have hne2 : y2.id ≠ cid := by
          intro hyc
          rw [← hxy2] at ha2
          simp [hyc] at ha2
        have hx1y : x1 = y1 := by rw [← hxy1]; simp [hne1]
        have hx2y : x2 = y2 := by rw [← hxy2]; simp [hne2]
        rw [hx1y] at ha1 hpp hdd
        rw [hx2y] at ha2 hpp hdd
        rw [hx1y, hx2y]
        exact huniq y1 hy1 y2 hy2 ha1 ha2 hpp hdd

/-- A duplicate-free list all of whose elements equal a given member has
exactly one element. -/
lemma length_eq_one_of_nodup_all_eq {α : Type} {l : List α} {a : α}
    (hnd : l.Nodup) (ha : a ∈ l) (hall : ∀ x ∈ l, x = a) : l.length = 1 := by
  cases l with
  | nil => cases ha
  | cons x xs =>
    cases xs with
    | nil => rfl
    | cons y ys =>
      have hx : x = a := hall x (by simp)
      have hy : y = a := hall y (by simp)
      rw [List.nodup_cons] at hnd
      exact absurd (by simp [hx, hy]) hnd.1

/-- C3: grant is idempotent: two sequential grants for the same pair
return the same consent id, the second leaves the ledger unchanged,
exactly one Active consent for that pair remains, and the at-most-one-
Active-per-pair invariant still holds. -/
theorem grant_idempotent (cl : ConsentLedger) (p d : String) (t1 t2 : Nat)
    (hwf : ConsentWF cl) :
    (grant (grant cl p d t1).1 p d t2).2.id = (grant cl p d t1).2.id ∧
    (grant (grant cl p d t1).1 p d t2).1 = (grant cl p d t1).1 ∧
    ((grant cl p d t1).1.consents.filter (fun c => isActiveFor c p d)).length = 1 ∧
    ConsentWF (grant (grant cl p d t1).1 p d t2).1 := by
  obtain ⟨hbound, hnd, huniq⟩ := hwf
  have hnodup : cl.consents.Nodup := List.Nodup.of_map _ hnd
  rcases hf : cl.consents.find? (fun c => isActiveFor c p d) with _ | c
  · have hnone := List.find?_eq_none.mp hf
    have hstep : grant cl p d t1 =
        ({ consents :=
            { id := cl.nextId, patientId := p, doctorId := d,
              state := ConsentState.Active, grantedAt := t1,
              revokedAt := none } :: cl.consents,
           nextId := cl.nextId + 1 },
         { id := cl.nextId, patientId := p, doctorId := d,
           state := ConsentState.Active, grantedAt := t1, revokedAt := none }) := by
      simp [grant, hf]
    have hhead : isActiveFor
        { id := cl.nextId, patientId := p, doctorId := d,
          state := ConsentState.Active, grantedAt := t1,
          revokedAt := none : Consent } p d = true := by
      simp [isActiveFor]
    have hfind2 : List.find? (fun c => isActiveFor c p d)
        ({ id := cl.nextId, patientId := p, doctorId := d,
           state := ConsentState.Active, grantedAt := t1,
           revokedAt := none } :: cl.consents) =
        some { id := cl.nextId, patientId := p, doctorId := d,
               state := ConsentState.Active, grantedAt := t1,
               revokedAt := none } :=
      List.find?_cons_of_pos _ hhead
    have hstep2 : (grant (grant cl p d t1).1 p d t2) =
        ((grant cl p d t1).1, (grant cl p d t1).2) := by
      rw [hstep]
      simp [grant, hfind2]
    refine ⟨by rw [hstep2], by rw [hstep2], ?_, ?_⟩
    · rw [hstep]
      simp only [List.filter_cons, hhead]
      have hrest : cl.consents.filter (fun c => isActiveFor c p d) = [] :=
        List.filter_eq_nil_iff.mpr hnone
      simp [hrest]
    · exact grant_wf p d t2 (grant_wf p d t1 ⟨hbound, hnd, huniq⟩)
  · have hstep : grant cl p d t1 = (cl, c) := by simp [grant, hf]
    have hmemc := List.mem_of_find?_eq_some hf
    have hactc := List.find?_some hf
    refine ⟨?_, ?_, ?_, ?_⟩
    · rw [hstep]
      simp [grant, hf]
    · rw [hstep]
      simp [grant, hf]
    · rw [hstep]
      refine length_eq_one_of_nodup_all_eq (a := c)
        (List.Nodup.filter _ hnodup) ?_ ?_
      · exact List.mem_filter.mpr ⟨hmemc, hactc⟩
      · intro x hx
        rcases List.mem_filter.mp hx with ⟨hxm, hxa⟩
        rcases isActiveFor_iff.mp hxa with ⟨hxp, hxd, hxs⟩
        rcases isActiveFor_iff.mp hactc with ⟨hcp, hcd, hcs⟩
        exact huniq x hxm c hmemc hxs hcs (hxp.trans hcp.symm) (hxd.trans hcd.symm)
    · exact grant_wf p d t2 (grant_wf p d t1 ⟨hbound, hnd, huniq⟩)

/-- Concrete consent ledger with one active consent, for witnesses. -/
def clSample : ConsentLedger :=
  { consents := [{ id := 0, patientId := "p1", doctorId := "d1",
                   state := ConsentState.Active, grantedAt := 5, revokedAt := none }],
    nextId := 1 }

/-- Concrete instantiation of the idempotent-grant theorem. -/
theorem grant_idempotent_witness :
    (grant (grant clSample "p1" "d1" 6).1 "p1" "d1" 7).2.id =
      (grant clSample "p1" "d1" 6).2.id ∧
    (grant (grant clSample "p1" "d1" 6).1 "p1" "d1" 7).1 =
      (grant clSample "p1" "d1" 6).1 ∧
    ((grant clSample "p1" "d1" 6).1.consents.filter
        (fun c => isActiveFor c "p1" "d1")).length = 1 ∧
    ConsentWF (grant (grant clSample "p1" "d1" 6).1 "p1" "d1" 7).1 :=
  grant_idempotent clSample "p1" "d1" 6 7
    ⟨by decide, by decide, by decide⟩

/-- C1: the authorization decision is re-evaluated against live consent
state: immediately after revoking the Active consent between a patient
and a doctor, the doctor's View request on the patient's record is
Denied, and immediately after a fresh grant for the pair the same request
is Allowed. -/
theorem revoke_then_grant_live (rl : RecordLedger) (cl : ConsentLedger)
    (r : MedicalRecord) (c : Consent) (p d : String) (rid t t2 : Nat)
    (hwf : ConsentWF cl) (hrec : getRecord rl rid = some r) (hp : r.patientId = p)
    (hne : d ≠ p) (hc : c ∈ cl.consents) (hcp : c.patientId = p)
    (hcd : c.doctorId = d) (hact : c.state = ConsentState.Active) :
    ∃ cl2 c2, revoke cl c.id t = Except.ok (cl2, c2) ∧
      authorize rl cl2 d Role.doctor rid Action.View = Decision.Denied ∧
      authorize rl (grant cl2 p d t2).1 d Role.doctor rid Action.View =
        Decision.Allowed := by
  obtain ⟨hbound, hnd, huniq⟩ := hwf
  have hfc : cl.consents.find? (fun x => x.id == c.id) = some c :=
    find?_id_of_mem hnd hc
  have hrev : ¬ c.state = ConsentState.Revoked := by
    rw [hact]
    intro hxx
    cases hxx
  have heq : revoke cl c.id t =
      Except.ok
        ({ cl with
            consents := cl.consents.map (fun x =>
              if x.id = c.id
              then { x with state := ConsentState.Revoked, revokedAt := some t }
              else x) },
         { c with state := ConsentState.Revoked, revokedAt := some t }) := by
    simp [revoke, hfc, hrev]
  refine ⟨_, _, heq, ?_, ?_⟩
  all_goals
    have hnotact : isActive
        { cl with
            consents := cl.consents.map (fun x =>
              if x.id = c.id
              then { x with state := ConsentState.Revoked, revokedAt := some t }
              else x) } p d = false := by
      rw [Bool.eq_false_iff]
      intro hax
      rw [isActive, List.any_eq_true] at hax
      obtain ⟨x, hx, hpx⟩ := hax
      rcases List.mem_map.mp hx with ⟨y, hy, hxy⟩
      by_cases hyc : y.id = c.id
      · rw [← hxy] at hpx
        rcases isActiveFor_iff.mp hpx with ⟨_, _, hstate⟩
        simp [hyc] at hstate
      · have hxyy : x = y := by rw [← hxy]; simp [hyc]
        rw [hxyy] at hpx
        rcases isActiveFor_iff.mp hpx with ⟨hyp, hyd, hys⟩
        have hycc := huniq y hy c hc hys hact (hyp.trans hcp.symm) (hyd.trans hcd.symm)
        exact hyc (by rw [hycc])
  · have h1 : ¬(d = r.patientId) := by rw [hp]; exact hne
    have h2 : ¬(Role.doctor = Role.doctor ∧ isActive
        { cl with
            consents := cl.consents.map (fun x =>
              if x.id = c.id
              then { x with state := ConsentState.Revoked, revokedAt := some t }
              else x) } r.patientId d = true) := by
      rw [hp]
      rintro ⟨-, hia⟩
      rw [hnotact] at hia
      cases hia
    simp [authorize, hrec, h1, h2]
    rw [hp]
    exact hnotact
  · have hgf : List.find? (fun x => isActiveFor x p d)
        (cl.consents.map (fun x =>
          if x.id = c.id
          then { x with state := ConsentState.Revoked, revokedAt := some t }
          else x)) = none := by
      rw [List.find?_eq_none]
      intro x hx hpx
      have hat : isActive
          { cl with
              consents := cl.consents.map (fun x =>
                if x.id = c.id
                then { x with state := ConsentState.Revoked, revokedAt := some t }
                else x) } p d = true := by
        rw [isActive, List.any_eq_true]
        exact ⟨x, hx, hpx⟩
      rw [hnotact] at hat
      cases hat
    have hia : isActive (grant
        { cl with
            consents := cl.consents.map (fun x =>
              if x.id = c.id
              then { x with state := ConsentState.Revoked, revokedAt := some t }
              else x) } p d t2).1 p d = true := by
      simp only [grant, hgf]
      simp [isActive, isActiveFor]
    have h1 : ¬(d = r.patientId) := by rw [hp]; exact hne
    have hia2 : isActive (grant
        { cl with
            consents := cl.consents.map (fun x =>
              if x.id = c.id
              then { x with state := ConsentState.Revoked, revokedAt := some t }
              else x) } p d t2).1 r.patientId d = true := by
      rw [hp]
      exact hia
    simp [authorize, hrec, h1, hia2]

/-- Concrete medical record owned by patient p1, for witnesses. -/
def recSample : MedicalRecord :=
  { id := 0, patientId := "p1", uploaderId := "p1", uploaderRole := Role.patient,
    contentAddr := ⟨[1, 2, 3]⟩, contentHash := hashBytes [1, 2, 3],
    mediaKind := "pdf", sizeBytes := 3, title := "report", descr := none,
    createdAt := 10, confirmed := false, txRef := none }

/-- Concrete record ledger holding recSample, for witnesses. -/
def rlSample : RecordLedger :=
  { records := [recSample], nextId := 1, store := { blobs := [[1, 2, 3]] } }

/-- Concrete instantiation of the revoke-then-grant liveness theorem. -/
theorem revoke_then_grant_live_witness :
    ∃ cl2 c2,
      revoke clSample 0 20 = Except.ok (cl2, c2) ∧
      authorize rlSample cl2 "d1" Role.doctor 0 Action.View = Decision.Denied ∧
      authorize rlSample (grant cl2 "p1" "d1" 21).1 "d1" Role.doctor 0 Action.View =
        Decision.Allowed :=
  revoke_then_grant_live rlSample clSample recSample
    { id := 0, patientId := "p1", doctorId := "d1",
      state := ConsentState.Active, grantedAt := 5, revokedAt := none }
    "p1" "d1" 0 20 21 ⟨by decide, by decide, by decide⟩ (by decide) rfl
    (by decide) (by decide) rfl rfl rfl

end MedChain
